import Mathlib

/-!
Verification of the offline-capable submission pipeline of the
Fix-My-Barangay progressive web app: the client-side offline queue
(frontend `lib/db.ts` and `lib/offlineQueue.ts`), the sync manager
(`lib/syncManager.ts`), the server-side geospatial duplicate detector
(`backend/src/services/duplicateDetector.ts`) and the report-creation
route (`backend/src/routes/reports.ts`).

The TypeScript modules are embedded shallowly: the IndexedDB queue store
becomes a `List` of queue items (IndexedDB keys are the unique item ids),
each `async` method becomes a pure function from explicit state to
explicit state, a rejected promise becomes `Except.error`, and the
remote submission call becomes a function parameter
`submit : ReportFormData → Except String Unit`.  Event emission is
modelled by returning the list of emitted events.  Timers, logging and
the `syncStatus` metadata record (which is written behind its own
catch-all handler and feeds nothing verified here) are not modelled.
-/

/-! ## Data model (frontend `src/types/index.ts`, `src/lib/db.ts`) -/

/-- Frontend `Location`: a latitude/longitude pair.  JavaScript numbers
are modelled as rationals. -/
structure GeoPoint where
  latitude : ℚ
  longitude : ℚ
deriving DecidableEq

/-- Frontend `ReportFormData` (the payload captured at enqueue time).
The optional photo `File` is out of scope of the queue logic. -/
structure ReportFormData where
  category : String
  description : String
  location : Option GeoPoint
  address : Option String
deriving DecidableEq

/-- `OfflineQueueItem.type` from `db.ts`. -/
inductive QueueItemType
  | CREATE_REPORT
  | UPDATE_REPORT
deriving DecidableEq

/-- `OfflineQueueItem` from `db.ts`: one deferred report submission. -/
structure OfflineQueueItem where
  id : String
  type : QueueItemType
  data : ReportFormData
  timestamp : Nat
  retryCount : Nat
  lastError : Option String
deriving DecidableEq

/-- The ids of a list of queue items, in order. -/
def idsOf (l : List OfflineQueueItem) : List String :=
  l.map (fun it => it.id)

/-! ## Durable local store operations (`db.ts`, `offlineQueueDB`)

The IndexedDB object store `offlineQueue` is modelled as a
`List OfflineQueueItem` in key-insertion order; `keyPath` is `id`, so
ids are the primary keys (unique in any store reachable through
`addToQueue`). -/

/-- The comparator of `getQueueItems`'s
`items.sort((a, b) => a.timestamp - b.timestamp)`. -/
def tsLe (a b : OfflineQueueItem) : Prop :=
  a.timestamp ≤ b.timestamp

instance : DecidableRel tsLe :=
  fun a b => inferInstanceAs (Decidable (a.timestamp ≤ b.timestamp))

instance : IsTotal OfflineQueueItem tsLe :=
  ⟨fun a b => Nat.le_total a.timestamp b.timestamp⟩

instance : IsTrans OfflineQueueItem tsLe :=
  ⟨fun _ _ _ hab hbc => Nat.le_trans hab hbc⟩

/-- `offlineQueueDB.getQueueItems`: read all queue items and sort them by
`timestamp` ascending (oldest first). -/
def getQueueItems (store : List OfflineQueueItem) : List OfflineQueueItem :=
  List.insertionSort tsLe store

/-- `offlineQueueDB.addToQueue`: build a fresh item with
`id = queue_<now>_<rand>`, `timestamp = now`, `retryCount = 0`, insert
it, and return its id.  `now` is `Date.now()` and `rand` the random
suffix. -/
def dbAddToQueue (store : List OfflineQueueItem) (type : QueueItemType)
    (data : ReportFormData) (now : Nat) (rand : String) :
    List OfflineQueueItem × String :=
  let queueItem : OfflineQueueItem :=
    { id := "queue_" ++ toString now ++ "_" ++ rand
      type := type
      data := data
      timestamp := now
      retryCount := 0
      lastError := none }
  (store ++ [queueItem], queueItem.id)

/-- `offlineQueueDB.removeFromQueue`: IndexedDB `delete` by key;
idempotent, removing an absent id is not an error. -/
def removeFromQueue (store : List OfflineQueueItem) (id : String) :
    List OfflineQueueItem :=
  store.filter (fun it => it.id ≠ id)

/-- `offlineQueueDB.updateQueueItem`: look the item up by id; if found,
set `retryCount` and — only when the new `lastError` is present (the
source guards the assignment with `if (lastError)`) — overwrite
`lastError`; if the id is absent, reject with
`Queue item <id> not found`. -/
def updateQueueItem (store : List OfflineQueueItem) (id : String)
    (retryCount : Nat) (lastError : Option String) :
    Except String (List OfflineQueueItem) :=
  if store.any (fun it => it.id = id) then
    .ok (store.map (fun it =>
      if it.id = id then
        { it with
          retryCount := retryCount
          lastError := match lastError with
            | some e => some e
            | none => it.lastError }
      else it))
  else
    .error ("Queue item " ++ id ++ " not found")

/-! ## Offline queue manager (`offlineQueue.ts`, `OfflineQueueManager`) -/

/-- `QUEUE_CONFIG.MAX_RETRIES`. -/
def MAX_RETRIES : Nat := 3

/-- `QUEUE_CONFIG.MAX_QUEUE_SIZE`. -/
def MAX_QUEUE_SIZE : Nat := 100

/-- The events the queue manager emits. `syncFailedWith` is the
`sync-failed` emission of the outer catch handler (payload `{error}`),
`syncFailed` the end-of-cycle emission (payload
`{successCount, failureCount, errors}`). -/
inductive QEvent
  | queueUpdated (action : String) (total : Nat)
  | syncStarted
  | syncCompleted (successCount failureCount : Nat)
  | syncFailed (successCount failureCount : Nat) (errors : List String)
  | syncFailedWith (error : String)
  | itemSynced (queueId : String)
  | itemFailed (queueId : String) (error : String)
deriving DecidableEq

/-- The manager's observable state: the persisted queue store, the
`isProcessing` in-flight guard, and `navigator.onLine`. -/
structure QueueState where
  store : List OfflineQueueItem
  isProcessing : Bool
  online : Bool
deriving DecidableEq

/-- The remote `reportsApi.submitReport` call: rejects with an error
message or resolves. -/
def SubmitFn : Type :=
  ReportFormData → Except String Unit

/-- `QueueStatus` as returned by `getQueueStatus`. -/
structure QueueStatus where
  pending : Nat
  processing : Bool
  errors : List String
deriving DecidableEq

/-- `OfflineQueueManager.getQueueStatus`: pending is the number of queue
items, processing the guard flag, errors the `lastError`s of the errored
items (store order: timestamp ascending) cut to the first 5. -/
def getQueueStatus (s : QueueState) : QueueStatus :=
  let queueItems := getQueueItems s.store
  let errors :=
    ((queueItems.filter (fun it => it.lastError.isSome)).filterMap
      (fun it => it.lastError)).take 5
  { pending := queueItems.length
    processing := s.isProcessing
    errors := errors }

/-- `OfflineQueueManager.addToQueue`: reject when the queue already holds
`MAX_QUEUE_SIZE` items, otherwise persist a fresh item via the store and
emit `queue-updated`.  Returns the (possibly unchanged) state, the
emitted events, and the promise outcome carrying the new queue id. -/
def addToQueue (s : QueueState) (reportData : ReportFormData) (now : Nat)
    (rand : String) : QueueState × List QEvent × Except String String :=
  let currentItems := getQueueItems s.store
  if currentItems.length ≥ MAX_QUEUE_SIZE then
    (s, [], .error ("Queue is full (max " ++ toString MAX_QUEUE_SIZE ++ " items)"))
  else
    let r := dbAddToQueue s.store .CREATE_REPORT reportData now rand
    ({ s with store := r.1 },
      [QEvent.queueUpdated "added" (currentItems.length + 1)],
      .ok r.2)

/-- `OfflineQueueManager.processQueueItem`: drop the item (and reject
with `Max retries exceeded`) once `retryCount ≥ MAX_RETRIES`; otherwise,
for a `CREATE_REPORT`, attempt the remote submission, removing the item
from the store on success and re-throwing the submission error on
failure.  The `Bool` records whether a remote submission was attempted. -/
def processQueueItem (submit : SubmitFn) (store : List OfflineQueueItem)
    (item : OfflineQueueItem) :
    List OfflineQueueItem × Bool × Except String Unit :=
  if item.retryCount ≥ MAX_RETRIES then
    (removeFromQueue store item.id, false, .error "Max retries exceeded")
  else
    match item.type with
    | .CREATE_REPORT =>
      match submit item.data with
      | .ok _ => (removeFromQueue store item.id, true, .ok ())
      | .error e => (store, true, .error e)
    | .UPDATE_REPORT =>
      (store, false, .error "Unsupported queue item type: UPDATE_REPORT")

/-- One iteration of `processQueue`'s `for` loop over `item`: run
`processQueueItem`, and on failure record the error on the item via
`updateQueueItem(id, retryCount + 1, message)`.  `abort` is the
rejection of that bookkeeping call (the only rejection that escapes the
per-item `try`). -/
structure ItemStep where
  store : List OfflineQueueItem
  attempted : Bool
  event : QEvent
  errorEntry : Option String
  success : Bool
  abort : Option String
deriving DecidableEq

/-- The body of `processQueue`'s per-item loop. -/
def runItem (submit : SubmitFn) (store : List OfflineQueueItem)
    (item : OfflineQueueItem) : ItemStep :=
  match processQueueItem submit store item with
  | (store1, att, .ok _) =>
    { store := store1
      attempted := att
      event := .itemSynced item.id
      errorEntry := none
      success := true
      abort := none }
  | (store1, att, .error msg) =>
    let entry := item.id ++ ": " ++ msg
    match updateQueueItem store1 item.id (item.retryCount + 1) (some msg) with
    | .ok store2 =>
      { store := store2
        attempted := att
        event := .itemFailed item.id msg
        errorEntry := some entry
        success := false
        abort := none }
    | .error e =>
      { store := store1
        attempted := att
        event := .itemFailed item.id msg
        errorEntry := some entry
        success := false
        abort := some e }

/-- Accumulated outcome of `processQueue`'s loop: the store after the
processed prefix, the success/failure counters and `errors` array, the
ids for which a remote submission was attempted (in order), the emitted
per-item events, and the rejection that aborted the loop, if any. -/
structure LoopResult where
  store : List OfflineQueueItem
  successCount : Nat
  failureCount : Nat
  errors : List String
  trace : List String
  events : List QEvent
  abort : Option String
deriving DecidableEq

/-- `processQueue`'s sequential `for (const item of queueItems)` loop. -/
def processLoop (submit : SubmitFn) :
    List OfflineQueueItem → List OfflineQueueItem → LoopResult
  | [], store =>
    { store := store, successCount := 0, failureCount := 0, errors := []
      trace := [], events := [], abort := none }
  | item :: rest, store =>
    let step := runItem submit store item
    let tr := if step.attempted then [item.id] else []
    match step.abort with
    | some e =>
      { store := step.store, successCount := 0, failureCount := 1
        errors := step.errorEntry.toList, trace := tr
        events := [step.event], abort := some e }
    | none =>
      let r := processLoop submit rest step.store
      if step.success then
        { store := r.store, successCount := r.successCount + 1
          failureCount := r.failureCount, errors := r.errors
          trace := tr ++ r.trace, events := step.event :: r.events
          abort := r.abort }
      else
        { store := r.store, successCount := r.successCount
          failureCount := r.failureCount + 1
          errors := step.errorEntry.toList ++ r.errors
          trace := tr ++ r.trace, events := step.event :: r.events
          abort := r.abort }

instance {ε α : Type} [DecidableEq ε] [DecidableEq α] : DecidableEq (Except ε α)
  | .ok a, .ok b =>
    if h : a = b then isTrue (by rw [h])
    else isFalse (fun hh => h (by injection hh))
  | .ok _, .error _ => isFalse (fun h => Except.noConfusion h)
  | .error _, .ok _ => isFalse (fun h => Except.noConfusion h)
  | .error e, .error f =>
    if h : e = f then isTrue (by rw [h])
    else isFalse (fun hh => h (by injection hh))

/-- Outcome of one `processQueue()` call: final state, attempted
submission ids, emitted events, and the promise outcome. -/
structure CycleResult where
  state : QueueState
  trace : List String
  events : List QEvent
  promise : Except String Unit
deriving DecidableEq

/-- `OfflineQueueManager.processQueue`.  `storeErr = some e` injects a
rejection of the initial `offlineQueueDB.getQueueItems()` read (store
unreachable or corrupted).  The guard returns immediately when a cycle
is in flight or the client is offline; the outer `try/catch/finally`
catches every rejection, emits `sync-failed {error}` for it, clears the
guard and resolves — the source has no re-throw, so `promise` is always
`ok`. -/
def runProcessQueue (submit : SubmitFn) (storeErr : Option String)
    (s : QueueState) : CycleResult :=
  if s.isProcessing || !s.online then
    { state := s, trace := [], events := [], promise := .ok () }
  else
    match storeErr with
    | some e =>
      { state := { s with isProcessing := false }
        trace := []
        events := [QEvent.syncStarted, QEvent.syncFailedWith e]
        promise := .ok () }
    | none =>
      let queueItems := getQueueItems s.store
      if queueItems.isEmpty then
        { state := { s with isProcessing := false }
          trace := []
          events := [QEvent.syncStarted]
          promise := .ok () }
      else
        let r := processLoop submit queueItems s.store
        let tailEvents :=
          match r.abort with
          | some e => [QEvent.syncFailedWith e]
          | none =>
            if r.errors.isEmpty then
              [QEvent.syncCompleted r.successCount 0]
            else
              [QEvent.syncFailed r.successCount r.failureCount r.errors]
        { state := { store := r.store, isProcessing := false, online := s.online }
          trace := r.trace
          events := QEvent.syncStarted :: r.events ++ tailEvents
          promise := .ok () }

/-- Repeated `processQueue()` cycles against a healthy store, returning
the final state and the per-cycle attempt traces. -/
def runCycles (submit : SubmitFn) (s : QueueState) :
    Nat → QueueState × List (List String)
  | 0 => (s, [])
  | n + 1 =>
    let r := runProcessQueue submit none s
    let rec' := runCycles submit r.state n
    (rec'.1, r.trace :: rec'.2)

/-- The reset pass of `OfflineQueueManager.retryFailedItems`: for each
failed item, call `updateQueueItem(id, retryCount, undefined)`
(intending to clear the error while keeping the retry count). -/
def retryResetPhase (store : List OfflineQueueItem) :
    List OfflineQueueItem → Except String (List OfflineQueueItem)
  | [] => .ok store
  | item :: rest =>
    match updateQueueItem store item.id item.retryCount none with
    | .ok store' => retryResetPhase store' rest
    | .error e => .error e

/-- `OfflineQueueManager.retryFailedItems`: select the items that have a
`lastError` and have not exhausted retries, run the reset pass, then
process the queue. -/
def retryFailedItems (submit : SubmitFn) (s : QueueState) :
    Except String (QueueState × List String × List QEvent) :=
  let queueItems := getQueueItems s.store
  let failedItems := queueItems.filter
    (fun it => it.lastError.isSome && it.retryCount < MAX_RETRIES)
  if failedItems.isEmpty then
    .ok (s, [], [])
  else
    match retryResetPhase s.store failedItems with
    | .error e => .error e
    | .ok store' =>
      let r := runProcessQueue submit none { s with store := store' }
      .ok (r.state, r.trace, r.events)

/-! ## Interleaving model of overlapping `processQueue` triggers

The client runs on a single-threaded event loop: the guard check
`if (this.isProcessing || !this.isOnline()) return;` and the assignment
`this.isProcessing = true` execute in one synchronous segment, while the
per-item work suspends at each `await`.  `SchedState`/`schedStep` model
an arbitrary interleaving of processQueue invocations (`trigger`, from
the timer, a reconnect event, `forceSync`, or the background-sync
callback) with the in-flight cycle advancing by one loop iteration
(`tick`). -/

structure SchedState where
  store : List OfflineQueueItem
  isProcessing : Bool
  online : Bool
  /-- The remaining snapshot items of the in-flight cycle, if one is
  active between its guard and its `finally`. -/
  inflight : Option (List OfflineQueueItem)
  /-- Submission attempts made by the in-flight cycle so far. -/
  cycleTrace : List String
  /-- Per-cycle attempt traces of the completed cycles. -/
  finished : List (List String)
deriving DecidableEq

inductive SchedEvent
  | trigger
  | tick
deriving DecidableEq

/-- One scheduler step.  A `trigger` while `isProcessing` (or offline)
is the guard's early return: it changes nothing and attempts nothing.
Otherwise it claims the guard and snapshots the queue.  A `tick`
advances the in-flight cycle by one item of its snapshot (or, at the
end of the snapshot, runs the `finally` that clears the guard); a
bookkeeping rejection (`abort`) also ends the cycle through the outer
catch. -/
def schedStep (submit : SubmitFn) (s : SchedState) : SchedEvent → SchedState
  | .trigger =>
    if s.isProcessing || !s.online then s
    else
      { s with
        isProcessing := true
        inflight := some (getQueueItems s.store)
        cycleTrace := [] }
  | .tick =>
    match s.inflight with
    | none => s
    | some [] =>
      { s with
        isProcessing := false
        inflight := none
        cycleTrace := []
        finished := s.finished ++ [s.cycleTrace] }
    | some (item :: rest) =>
      let step := runItem submit s.store item
      let tr := s.cycleTrace ++ (if step.attempted then [item.id] else [])
      match step.abort with
      | some _ =>
        { store := step.store, isProcessing := false, online := s.online
          inflight := none, cycleTrace := [], finished := s.finished ++ [tr] }
      | none =>
        { s with store := step.store, inflight := some rest, cycleTrace := tr }

/-- Run the scheduler over a sequence of events. -/
def schedRun (submit : SubmitFn) (s : SchedState) (evs : List SchedEvent) :
    SchedState :=
  evs.foldl (schedStep submit) s

/-- The well-formedness the scheduler maintains: the persisted ids are
unique, the in-flight snapshot has unique ids none of which were already
attempted in this cycle, the guard flag is held whenever a cycle is in
flight, and no completed cycle ever attempted an item twice. -/
structure SchedInv (s : SchedState) : Prop where
  storeNodup : (idsOf s.store).Nodup
  traceNodup : s.cycleTrace.Nodup
  inflightNodup : ∀ l, s.inflight = some l → (idsOf l).Nodup
  inflightFresh : ∀ l, s.inflight = some l → ∀ i ∈ idsOf l, i ∉ s.cycleTrace
  guardHeld : s.inflight.isSome = true → s.isProcessing = true
  finishedNodup : ∀ t ∈ s.finished, t.Nodup

/-! ## Sync manager guard (`syncManager.ts`, `SyncManager.performSync`) -/

inductive NetworkStatus
  | online
  | offline
  | checking
deriving DecidableEq

/-- What `performSync` does: await the shared in-flight promise, throw
`Cannot sync while offline`, or start a new `executeSyncOperation`. -/
inductive SyncAction
  | awaitInFlight
  | throwOffline
  | startNew
deriving DecidableEq

/-- The decision prologue of `SyncManager.performSync`: when
`currentSyncPromise` is non-null the call returns that same promise;
otherwise an offline status throws; otherwise a new sync operation
starts and becomes the shared promise. -/
def performSyncDecision (currentSyncInFlight : Bool)
    (networkStatus : NetworkStatus) : SyncAction :=
  if currentSyncInFlight then .awaitInFlight
  else if networkStatus = .offline then .throwOffline
  else .startNew

/-! ## Duplicate detector (`backend/src/services/duplicateDetector.ts`)

The SQL query restricts candidates to the recency window
(`created_at > NOW() - recentHours`); its result rows are the `rows`
input below.  JavaScript numbers are modelled as real numbers. -/

/-- `PotentialDuplicate`: a read-only projection with the distance
rounded to whole meters. -/
structure PotentialDuplicate where
  id : String
  description : String
  distance_m : ℤ
  created_at : String
deriving DecidableEq

/-- The comparator of `candidates.sort((a, b) => a.distance_m - b.distance_m)`. -/
def distLe (a b : PotentialDuplicate) : Prop :=
  a.distance_m ≤ b.distance_m

instance : DecidableRel distLe :=
  fun a b => inferInstanceAs (Decidable (a.distance_m ≤ b.distance_m))

instance : IsTotal PotentialDuplicate distLe :=
  ⟨fun a b => Int.le_total a.distance_m b.distance_m⟩

instance : IsTrans PotentialDuplicate distLe :=
  ⟨fun _ _ _ hab hbc => Int.le_trans hab hbc⟩

noncomputable section

/-- Backend `Location` (latitude/longitude pair). -/
structure Location where
  latitude : ℝ
  longitude : ℝ

/-- One row of the recency-window query:
`SELECT id, description, ST_Y(location), ST_X(location), created_at`. -/
structure ReportRow where
  id : String
  description : String
  latitude : ℝ
  longitude : ℝ
  created_at : String

/-- JavaScript `Math.atan2 y x`. -/
def atan2 (y x : ℝ) : ℝ :=
  if 0 < x then Real.arctan (y / x)
  else if x < 0 then
    (if 0 ≤ y then Real.arctan (y / x) + Real.pi
     else Real.arctan (y / x) - Real.pi)
  else
    (if 0 < y then Real.pi / 2 else if y < 0 then -(Real.pi / 2) else 0)

/-- `haversine` from `duplicateDetector.ts`: great-circle distance in
meters, mean Earth radius 6,371,000 m, half-angle formula. -/
def haversine (a b : Location) : ℝ :=
  let R : ℝ := 6371000
  let toRad : ℝ → ℝ := fun d => d * Real.pi / 180
  let dLat := toRad (b.latitude - a.latitude)
  let dLon := toRad (b.longitude - a.longitude)
  let lat1 := toRad a.latitude
  let lat2 := toRad b.latitude
  let sinDLat := Real.sin (dLat / 2)
  let sinDLon := Real.sin (dLon / 2)
  let h := sinDLat * sinDLat +
    Real.cos lat1 * Real.cos lat2 * sinDLon * sinDLon
  let c := 2 * atan2 (Real.sqrt h) (Real.sqrt (1 - h))
  R * c

/-- The candidate-collecting `for` loop of `findPotentialDuplicates`:
push a projection (with the distance rounded to the nearest integer,
JavaScript `Math.round`) for every row within the radius. -/
def candidatesOf (current : Location) (radiusMeters : ℝ)
    (rows : List ReportRow) : List PotentialDuplicate :=
  rows.foldl
    (fun candidates row =>
      let dist := haversine current ⟨row.latitude, row.longitude⟩
      if dist ≤ radiusMeters then
        candidates ++ [⟨row.id, row.description, round dist, row.created_at⟩]
      else candidates)
    []

/-- `findPotentialDuplicates`: collect the in-radius candidates, sort
ascending by `distance_m`, return up to the 5 closest.  The default
radius is 120 m; the 24 h recency window is applied by the SQL query
producing `rows`. -/
def findPotentialDuplicates (location : Location) (rows : List ReportRow)
    (radiusMeters : ℝ := 120) : List PotentialDuplicate :=
  ((candidatesOf location radiusMeters rows).insertionSort distLe).take 5

/-- The specification's wording of the detector, for comparison: keep
the candidates whose distance is at most the radius, project each with
its rounded distance, sort ascending by distance, return at most the 5
closest. -/
def findPotentialDuplicatesSpec (location : Location) (rows : List ReportRow)
    (radiusMeters : ℝ := 120) : List PotentialDuplicate :=
  (((rows.filter (fun row =>
      decide (haversine location ⟨row.latitude, row.longitude⟩ ≤ radiusMeters))).map
        (fun row =>
          ⟨row.id, row.description,
            round (haversine location ⟨row.latitude, row.longitude⟩),
            row.created_at⟩)).insertionSort distLe).take 5

end

/-! ## Report creation route (`backend/src/routes/reports.ts`, POST /reports)

The handler's two awaited collaborators are passed as outcomes:
`dupResult` for `findPotentialDuplicates(...)` and `createResult` for
`ReportModel.create(...)`. -/

/-- Backend `Coordinates` (`models/Location.ts`). -/
structure Coordinates where
  latitude : ℚ
  longitude : ℚ
deriving DecidableEq

/-- `validateReportCategory` (`models/Report.ts`). -/
def validateReportCategory (category : String) : Bool :=
  ["Infrastructure", "Sanitation", "Safety", "Water", "Electrical"].contains
    category

/-- `validateDescription` (`models/Report.ts`): between 1 and 500
characters. -/
def validateDescription (description : String) : Bool :=
  decide (1 ≤ description.length) && decide (description.length ≤ 500)

/-- `LocationValidator.validateCoordinates` (`models/Location.ts`).  The
JavaScript `typeof`/`NaN` checks have no rational counterpart. -/
def validateCoordinates (lat lng : ℚ) : Except String Unit :=
  if lat < -90 ∨ lat > 90 then
    .error "Latitude must be between -90 and 90"
  else if lng < -180 ∨ lng > 180 then
    .error "Longitude must be between -180 and 180"
  else
    .ok ()

/-- `LocationValidator.isWithinPhilippines` with the
`PHILIPPINES_BOUNDS` box south 4.5, north 21.5, west 116.9, east 126.6
(written as explicit fractions). -/
def isWithinPhilippines (lat lng : ℚ) : Bool :=
  decide (mkRat 45 10 ≤ lat) && decide (lat ≤ mkRat 215 10) &&
    decide (mkRat 1169 10 ≤ lng) && decide (lng ≤ mkRat 1266 10)

/-- `LocationValidator.validateLocation`: `none` models a missing or
non-object location. -/
def validateLocation (location : Option Coordinates) :
    Except String Coordinates :=
  match location with
  | none => .error "Location must be an object"
  | some loc =>
    match validateCoordinates loc.latitude loc.longitude with
    | .error e => .error e
    | .ok _ =>
      if isWithinPhilippines loc.latitude loc.longitude then
        .ok ⟨loc.latitude, loc.longitude⟩
      else
        .error "Location must be within Philippines boundaries"

/-- The persisted report returned by `ReportModel.create`. -/
structure Report where
  id : String
  category : String
  description : String
  location : Coordinates
  status : String
deriving DecidableEq

/-- The responses the POST /reports handler can produce. -/
inductive HttpResponse
  | badRequest (error message : String)
  | created (report : Report) (duplicates : List PotentialDuplicate)
      (message : String)
  | serverError (error message : String)
deriving DecidableEq

/-- The request body fields the handler destructures.  `none` models an
absent (or, for `location`, non-object) field; the JavaScript falsiness
of the empty string collapses into the later length and enumeration
checks. -/
structure ReportRequestBody where
  category : Option String
  description : Option String
  location : Option Coordinates
  address : Option String
deriving DecidableEq

/-- The POST /reports handler: required-field check, category,
description and location validation, then the advisory duplicate
detection (its rejection is caught and replaced by `[]`), then report
creation (its rejection is the 500 path). -/
def postReportHandler (body : ReportRequestBody)
    (dupResult : Except String (List PotentialDuplicate))
    (createResult : Except String Report) : HttpResponse :=
  match body.category, body.description, body.location with
  | some category, some description, some location =>
    if !(validateReportCategory category) then
      .badRequest "Invalid category"
        "Category must be one of: Infrastructure, Sanitation, Safety, Water, Electrical"
    else if !(validateDescription description) then
      .badRequest "Invalid description"
        "Description must be between 1 and 500 characters"
    else
      match validateLocation (some location) with
      | .error e => .badRequest "Invalid location" e
      | .ok _ =>
        let duplicates :=
          match dupResult with
          | .ok d => d
          | .error _ => []
        match createResult with
        | .error _ => .serverError "Internal server error" "Failed to create report"
        | .ok report =>
          .created report duplicates
            (if duplicates.length ≠ 0 then
              "Report submitted. " ++ toString duplicates.length ++
                " similar recent report(s) nearby."
            else
              "Report submitted successfully")
  | _, _, _ =>
    .badRequest "Validation failed"
      "Category, description, and location are required"

/-! ## Concrete inputs used to exercise the model -/

/-- A representative enqueue payload. -/
def demoPayload : ReportFormData :=
  { category := "Water", description := "Leak"
    location := some ⟨9, 125⟩, address := none }

/-- A queue item with the given id, timestamp, retry count and error. -/
def demoItem (id : String) (ts retry : Nat) (err : Option String) :
    OfflineQueueItem :=
  { id := id, type := .CREATE_REPORT, data := demoPayload
    timestamp := ts, retryCount := retry, lastError := err }

/-- A remote call that always rejects. -/
def demoFailSubmit : SubmitFn := fun _ => .error "Network error"

/-- A remote call that always resolves. -/
def demoOkSubmit : SubmitFn := fun _ => .ok ()

/-- Six errored queue items enqueued at times 1..6. -/
def sixErroredStore : List OfflineQueueItem :=
  [demoItem "a1" 1 1 (some "e1"), demoItem "a2" 2 1 (some "e2"),
   demoItem "a3" 3 1 (some "e3"), demoItem "a4" 4 1 (some "e4"),
   demoItem "a5" 5 1 (some "e5"), demoItem "a6" 6 1 (some "e6")]

/-- A scheduler state with a cycle in flight. -/
def busySchedState : SchedState :=
  { store := [demoItem "q1" 1 0 none], isProcessing := true, online := true
    inflight := some [], cycleTrace := [], finished := [] }

/-! ## Basic facts about the store operations -/

lemma getQueueItems_perm (store : List OfflineQueueItem) :
    (getQueueItems store).Perm store :=
  List.perm_insertionSort tsLe store

lemma getQueueItems_length (store : List OfflineQueueItem) :
    (getQueueItems store).length = store.length :=
  (getQueueItems_perm store).length_eq

lemma getQueueItems_sorted (store : List OfflineQueueItem) :
    (getQueueItems store).Sorted tsLe :=
  List.sorted_insertionSort tsLe store

lemma mem_idsOf {store : List OfflineQueueItem} {a : String} :
    a ∈ idsOf store ↔ ∃ it ∈ store, it.id = a := by
  simp [idsOf]

lemma removeFromQueue_sublist (store : List OfflineQueueItem) (id : String) :
    (removeFromQueue store id).Sublist store :=
  List.filter_sublist store

lemma idsOf_removeFromQueue_nodup {store : List OfflineQueueItem} (id : String)
    (h : (idsOf store).Nodup) : (idsOf (removeFromQueue store id)).Nodup :=
  h.sublist ((removeFromQueue_sublist store id).map _)

lemma mem_idsOf_removeFromQueue {store : List OfflineQueueItem} {a id : String} :
    a ∈ idsOf (removeFromQueue store id) ↔ a ∈ idsOf store ∧ a ≠ id := by
  simp only [idsOf, removeFromQueue, List.mem_map, List.mem_filter]
  constructor
  · rintro ⟨it, ⟨hmem, hne⟩, rfl⟩
    exact ⟨⟨it, hmem, rfl⟩, by simpa using hne⟩
  · rintro ⟨⟨it, hmem, rfl⟩, hne⟩
    exact ⟨it, ⟨hmem, by simpa using hne⟩, rfl⟩

lemma updateQueueItem_ids {store store' : List OfflineQueueItem} {id : String}
    {rc : Nat} {err : Option String}
    (h : updateQueueItem store id rc err = .ok store') :
    idsOf store' = idsOf store := by
  unfold updateQueueItem at h
  split at h
  · injection h with h
    subst h
    simp only [idsOf, List.map_map]
    refine List.map_congr_left ?_
    intro it _
    by_cases hid : it.id = id <;> simp [hid]
  · exact absurd h (by simp)

lemma updateQueueItem_found {store : List OfflineQueueItem} {id : String}
    (rc : Nat) (err : Option String) (h : id ∈ idsOf store) :
    ∃ store', updateQueueItem store id rc err = .ok store' := by
  obtain ⟨it, hmem, rfl⟩ := mem_idsOf.mp h
  unfold updateQueueItem
  rw [if_pos]
  · exact ⟨_, rfl⟩
  · simp only [List.any_eq_true, decide_eq_true_eq]
    exact ⟨it, hmem, rfl⟩

lemma updateQueueItem_missing {store : List OfflineQueueItem} {id : String}
    (rc : Nat) (err : Option String) (h : id ∉ idsOf store) :
    updateQueueItem store id rc err =
      .error ("Queue item " ++ id ++ " not found") := by
  unfold updateQueueItem
  rw [if_neg]
  simp only [List.any_eq_true, decide_eq_true_eq]
  rintro ⟨it, hmem, rfl⟩
  exact h (mem_idsOf.mpr ⟨it, hmem, rfl⟩)

lemma id_not_mem_removeFromQueue (store : List OfflineQueueItem) (id : String) :
    id ∉ idsOf (removeFromQueue store id) := by
  intro h
  exact (mem_idsOf_removeFromQueue.mp h).2 rfl

/-! ## Case analysis of one loop iteration (`runItem`) -/

lemma runItem_success (submit : SubmitFn) {item : OfflineQueueItem}
    (store : List OfflineQueueItem)
    (hr : item.retryCount < MAX_RETRIES) (ht : item.type = .CREATE_REPORT)
    (hs : submit item.data = .ok ()) :
    runItem submit store item =
      { store := removeFromQueue store item.id, attempted := true
        event := .itemSynced item.id, errorEntry := none
        success := true, abort := none } := by
  unfold runItem processQueueItem
  rw [if_neg (by omega), ht, hs]

lemma runItem_failure (submit : SubmitFn) {item : OfflineQueueItem} {m : String}
    (store : List OfflineQueueItem)
    (hr : item.retryCount < MAX_RETRIES) (ht : item.type = .CREATE_REPORT)
    (hs : submit item.data = .error m) (hmem : item.id ∈ idsOf store) :
    ∃ store2,
      updateQueueItem store item.id (item.retryCount + 1) (some m) = .ok store2 ∧
      idsOf store2 = idsOf store ∧
      runItem submit store item =
        { store := store2, attempted := true
          event := .itemFailed item.id m
          errorEntry := some (item.id ++ ": " ++ m)
          success := false, abort := none } := by
  obtain ⟨store2, hupd⟩ :=
    updateQueueItem_found (item.retryCount + 1) (some m) hmem
  refine ⟨store2, hupd, updateQueueItem_ids hupd, ?_⟩
  unfold runItem processQueueItem
  rw [if_neg (by omega), ht, hs]
  dsimp only
  rw [hupd]

lemma runItem_drop (submit : SubmitFn) {item : OfflineQueueItem}
    (store : List OfflineQueueItem) (hr : item.retryCount ≥ MAX_RETRIES) :
    runItem submit store item =
      { store := removeFromQueue store item.id, attempted := false
        event := .itemFailed item.id "Max retries exceeded"
        errorEntry := some (item.id ++ ": " ++ "Max retries exceeded")
        success := false
        abort := some ("Queue item " ++ item.id ++ " not found") } := by
  unfold runItem processQueueItem
  rw [if_pos hr]
  dsimp only
  rw [updateQueueItem_missing _ _ (id_not_mem_removeFromQueue store item.id)]

lemma processQueueItem_store (submit : SubmitFn) (store : List OfflineQueueItem)
    (item : OfflineQueueItem) :
    (processQueueItem submit store item).1 = removeFromQueue store item.id ∨
      (processQueueItem submit store item).1 = store := by
  unfold processQueueItem
  split
  · exact .inl rfl
  · split
    · split
      · exact .inl rfl
      · exact .inr rfl
    · exact .inr rfl

lemma runItem_store_nodup {submit : SubmitFn} {item : OfflineQueueItem}
    {store : List OfflineQueueItem} (h : (idsOf store).Nodup) :
    (idsOf (runItem submit store item).store).Nodup := by
  have hstore1 : (idsOf (processQueueItem submit store item).1).Nodup := by
    rcases processQueueItem_store submit store item with h1 | h1 <;> rw [h1]
    · exact idsOf_removeFromQueue_nodup _ h
    · exact h
  unfold runItem
  rcases hpq : processQueueItem submit store item with ⟨store1, att, res⟩
  rw [hpq] at hstore1
  rcases res with msg | u
  · dsimp only
    rcases hupd : updateQueueItem store1 item.id (item.retryCount + 1) (some msg)
      with e | store2
    · dsimp only
      exact hstore1
    · dsimp only
      rw [updateQueueItem_ids hupd]
      exact hstore1
  · dsimp only
    exact hstore1

/-! ## Behaviour of the processing loop -/

lemma processLoop_allOk (submit : SubmitFn) (hok : ∀ p, submit p = .ok ())
    (items : List OfflineQueueItem) :
    ∀ store : List OfflineQueueItem,
      (∀ it ∈ items, it.retryCount < MAX_RETRIES ∧ it.type = .CREATE_REPORT) →
      (processLoop submit items store).trace = idsOf items ∧
      (processLoop submit items store).abort = none ∧
      (processLoop submit items store).errors = [] := by
  induction items with
  | nil => intro store _; exact ⟨rfl, rfl, rfl⟩
  | cons item rest ih =>
    intro store hfresh
    obtain ⟨hr, ht⟩ := hfresh item (List.mem_cons_self item rest)
    have hstep := runItem_success submit store hr ht (hok item.data)
    have ihr := ih (removeFromQueue store item.id)
      (fun it hit => hfresh it (List.mem_cons_of_mem _ hit))
    unfold processLoop
    rw [hstep]
    simp [ihr.1, ihr.2.1, ihr.2.2, idsOf]

lemma processLoop_trace_full (submit : SubmitFn) (items : List OfflineQueueItem) :
    ∀ store : List OfflineQueueItem,
      (∀ it ∈ items, it.retryCount < MAX_RETRIES ∧ it.type = .CREATE_REPORT) →
      (∀ it ∈ items, it.id ∈ idsOf store) →
      (idsOf store).Nodup → (idsOf items).Nodup →
      (processLoop submit items store).trace = idsOf items ∧
      (processLoop submit items store).abort = none := by
  induction items with
  | nil => intro store _ _ _ _; exact ⟨rfl, rfl⟩
  | cons item rest ih =>
    intro store hfresh hmem hnodS hnodI
    obtain ⟨hr, ht⟩ := hfresh item (List.mem_cons_self item rest)
    have hnodC : (∀ x ∈ rest, ¬ x.id = item.id) ∧
        (rest.map fun it => it.id).Nodup := by
      simpa [idsOf] using hnodI
    have hitem_notin : item.id ∉ idsOf rest := by
      simp only [idsOf, List.mem_map]
      rintro ⟨x, hx, hEq⟩
      exact hnodC.1 x hx hEq
    have hnodI' : (idsOf rest).Nodup := hnodC.2
    have hfresh' := fun it hit => hfresh it (List.mem_cons_of_mem _ hit)
    cases hsub : submit item.data with
    | ok u =>
      cases u
      have hstep := runItem_success submit store hr ht hsub
      have hmem' : ∀ it ∈ rest, it.id ∈ idsOf (removeFromQueue store item.id) := by
        intro it hit
        refine mem_idsOf_removeFromQueue.mpr
          ⟨hmem it (List.mem_cons_of_mem _ hit), ?_⟩
        intro hEq
        apply hitem_notin
        rw [← hEq]
        exact List.mem_map_of_mem _ hit
      have ihr := ih (removeFromQueue store item.id) hfresh' hmem'
        (idsOf_removeFromQueue_nodup _ hnodS) hnodI'
      unfold processLoop
      rw [hstep]
      simp [ihr.1, ihr.2, idsOf]
    | error m =>
      obtain ⟨store2, hupd, hids2, hstep⟩ := runItem_failure
        submit store hr ht hsub
        (hmem item (List.mem_cons_self item rest))
      have hmem' : ∀ it ∈ rest, it.id ∈ idsOf store2 := by
        rw [hids2]
        intro it hit
        exact hmem it (List.mem_cons_of_mem _ hit)
      have ihr := ih store2 hfresh' hmem' (hids2 ▸ hnodS) hnodI'
      unfold processLoop
      rw [hstep]
      simp [ihr.1, ihr.2, idsOf]

/-! ## Behaviour of a whole cycle -/

lemma runProcessQueue_promise (submit : SubmitFn) (storeErr : Option String)
    (s : QueueState) : (runProcessQueue submit storeErr s).promise = .ok () := by
  unfold runProcessQueue
  split
  · rfl
  · cases storeErr with
    | some e => rfl
    | none =>
      dsimp only
      split
      · rfl
      · rfl

lemma cycle_single_fail (submit : SubmitFn) (item : OfflineQueueItem) (m : String)
    (hr : item.retryCount < MAX_RETRIES) (ht : item.type = .CREATE_REPORT)
    (hs : submit item.data = .error m) :
    runProcessQueue submit none ⟨[item], false, true⟩ =
      { state := ⟨[{ item with retryCount := item.retryCount + 1, lastError := some m }], false, true⟩
        trace := [item.id]
        events := [QEvent.syncStarted, QEvent.itemFailed item.id m,
          QEvent.syncFailed 0 1 [item.id ++ ": " ++ m]]
        promise := .ok () } := by
  have hmax : ¬ item.retryCount ≥ MAX_RETRIES := by omega
  unfold runProcessQueue
  simp [processLoop, runItem, processQueueItem, updateQueueItem, getQueueItems,
    List.insertionSort, List.orderedInsert, hmax, ht, hs, removeFromQueue,
    idsOf]

lemma cycle_single_drop (submit : SubmitFn) (item : OfflineQueueItem)
    (hr : item.retryCount ≥ MAX_RETRIES) :
    runProcessQueue submit none ⟨[item], false, true⟩ =
      { state := ⟨[], false, true⟩
        trace := []
        events := [QEvent.syncStarted,
          QEvent.itemFailed item.id "Max retries exceeded",
          QEvent.syncFailedWith ("Queue item " ++ item.id ++ " not found")]
        promise := .ok () } := by
  have hstep := runItem_drop submit [item] hr
  have hremove : removeFromQueue [item] item.id = [] := by
    simp [removeFromQueue]
  rw [hremove] at hstep
  unfold runProcessQueue
  simp [processLoop, getQueueItems, List.insertionSort, List.orderedInsert,
    hstep]

lemma getQueueStatus_pending (s : QueueState) :
    (getQueueStatus s).pending = s.store.length := by
  unfold getQueueStatus
  dsimp only
  rw [getQueueItems_length]

/-! ## Sorting facts for the FIFO property -/

lemma sorted_eq_of_perm :
    ∀ {l₁ l₂ : List OfflineQueueItem}, l₁.Perm l₂ →
      l₁.Sorted tsLe → l₂.Sorted tsLe →
      (l₁.map fun it => it.timestamp).Nodup → l₁ = l₂ := by
  intro l₁
  induction l₁ with
  | nil =>
    intro l₂ hp _ _ _
    exact hp.nil_eq
  | cons x t ih =>
    intro l₂ hp h₁ h₂ hk
    cases l₂ with
    | nil =>
      have := hp.length_eq
      simp at this
    | cons y t₂ =>
      have hxy : x = y := by
        by_contra hne
        have hyx : y ∈ t := by
          have hmem : y ∈ x :: t := hp.mem_iff.mpr (List.mem_cons_self y t₂)
          rcases List.mem_cons.mp hmem with h | h
          · exact absurd h.symm hne
          · exact h
        have hxt : x ∈ t₂ := by
          have hmem : x ∈ y :: t₂ := hp.subset (List.mem_cons_self x t)
          rcases List.mem_cons.mp hmem with h | h
          · exact absurd h hne
          · exact h
        have hle1 : x.timestamp ≤ y.timestamp :=
          (List.pairwise_cons.mp h₁).1 y hyx
        have hle2 : y.timestamp ≤ x.timestamp :=
          (List.pairwise_cons.mp h₂).1 x hxt
        have hts : x.timestamp ∈ t.map fun it => it.timestamp := by
          rw [Nat.le_antisymm hle1 hle2]
          exact List.mem_map_of_mem _ hyx
        exact (List.nodup_cons.mp hk).1 hts
      subst hxy
      have hteq : t = t₂ := ih hp.cons_inv h₁.of_cons h₂.of_cons
        (List.nodup_cons.mp hk).2
      rw [hteq]

lemma getQueueItems_cons_min (d : OfflineQueueItem)
    (rest : List OfflineQueueItem)
    (hfirst : ∀ x ∈ rest, d.timestamp ≤ x.timestamp) :
    ∃ tail, getQueueItems (d :: rest) = d :: tail := by
  have hsort : getQueueItems (d :: rest) =
      List.orderedInsert tsLe d (List.insertionSort tsLe rest) := rfl
  cases hrest : List.insertionSort tsLe rest with
  | nil =>
    exact ⟨[], by rw [hsort, hrest]; rfl⟩
  | cons b tl =>
    have hb : b ∈ rest :=
      (List.perm_insertionSort tsLe rest).subset
        (hrest ▸ List.mem_cons_self b tl)
    refine ⟨b :: tl, ?_⟩
    rw [hsort, hrest]
    unfold List.orderedInsert
    rw [if_pos (show tsLe d b from hfirst b hb)]

/-! ## C6: capacity check of addToQueue -/

/-- C6: `addToQueue` rejects with the queue-full error when the queue
already holds `MAX_QUEUE_SIZE` (100) items, leaving the state unchanged
and emitting nothing; below capacity it persists a fresh item with
`retry_count = 0` and timestamp `now`, returns that item's id, and
emits a `queue-updated` event. -/
theorem c6_addToQueue_capacity :
    (∀ (s : QueueState) (reportData : ReportFormData) (now : Nat) (rand : String),
      s.store.length ≥ MAX_QUEUE_SIZE →
      addToQueue s reportData now rand =
        (s, [], .error "Queue is full (max 100 items)")) ∧
    (∀ (s : QueueState) (reportData : ReportFormData) (now : Nat) (rand : String),
      s.store.length < MAX_QUEUE_SIZE →
      ∃ item : OfflineQueueItem,
        addToQueue s reportData now rand =
          ({ s with store := s.store ++ [item] },
            [QEvent.queueUpdated "added" (s.store.length + 1)],
            .ok item.id) ∧
        item.retryCount = 0 ∧ item.timestamp = now ∧ item.data = reportData) := by
  constructor
  · intro s reportData now rand h
    have hlen : (getQueueItems s.store).length ≥ MAX_QUEUE_SIZE := by
      rw [getQueueItems_length]; exact h
    unfold addToQueue
    rw [if_pos hlen]
    rfl
  · intro s reportData now rand h
    have hlen : ¬ (getQueueItems s.store).length ≥ MAX_QUEUE_SIZE := by
      rw [getQueueItems_length]; omega
    refine ⟨{ id := "queue_" ++ toString now ++ "_" ++ rand
              type := .CREATE_REPORT, data := reportData, timestamp := now
              retryCount := 0, lastError := none }, ?_, rfl, rfl, rfl⟩
    unfold addToQueue
    rw [if_neg hlen, getQueueItems_length]
    rfl

/-- C6 at a concrete input: a full queue of 100 items rejects, an empty
queue accepts. -/
theorem c6_witness :
    addToQueue ⟨List.replicate 100 (demoItem "q1" 1 0 none), false, true⟩
        demoPayload 7 "r" =
      (⟨List.replicate 100 (demoItem "q1" 1 0 none), false, true⟩, [],
        .error "Queue is full (max 100 items)") ∧
    ∃ item : OfflineQueueItem,
      addToQueue ⟨[], false, true⟩ demoPayload 7 "r" =
        (⟨[item], false, true⟩, [QEvent.queueUpdated "added" 1], .ok item.id) ∧
      item.retryCount = 0 ∧ item.timestamp = 7 ∧ item.data = demoPayload := by
  constructor
  · exact c6_addToQueue_capacity.1 _ demoPayload 7 "r" (by simp [MAX_QUEUE_SIZE])
  · obtain ⟨item, h1, h2, h3, h4⟩ :=
      c6_addToQueue_capacity.2 ⟨[], false, true⟩ demoPayload 7 "r" (by simp [MAX_QUEUE_SIZE])
    exact ⟨item, h1, h2, h3, h4⟩

/-! ## C5: duplicate detection is advisory and non-blocking -/

/-- C5: for every valid report submission, when the duplicate query
rejects, report creation still succeeds — the handler returns the 201
`created` response carrying the new report and an empty duplicates
list. -/
theorem c5_duplicate_failure_nonblocking
    (category description : String) (location : Coordinates)
    (address : Option String) (e : String) (report : Report)
    (hc : validateReportCategory category = true)
    (hd : validateDescription description = true)
    (hl : validateLocation (some location) = .ok location) :
    postReportHandler ⟨some category, some description, some location, address⟩
        (.error e) (.ok report) =
      .created report [] "Report submitted successfully" := by
  simp [postReportHandler, hc, hd, hl]

/-- C5 at a concrete input: a valid submission with a rejecting
duplicate query still creates the report. -/
theorem c5_witness :
    postReportHandler
        ⟨some "Water", some "Leak", some ⟨mkRat 978 100, mkRat 12549 100⟩, none⟩
        (.error "relation reports does not exist")
        (.ok { id := "r1", category := "Water", description := "Leak",
               location := ⟨mkRat 978 100, mkRat 12549 100⟩, status := "Submitted" }) =
      .created
        { id := "r1", category := "Water", description := "Leak",
          location := ⟨mkRat 978 100, mkRat 12549 100⟩, status := "Submitted" }
        [] "Report submitted successfully" :=
  c5_duplicate_failure_nonblocking "Water" "Leak" ⟨mkRat 978 100, mkRat 12549 100⟩
    none "relation reports does not exist"
    { id := "r1", category := "Water", description := "Leak",
      location := ⟨mkRat 978 100, mkRat 12549 100⟩, status := "Submitted" }
    (by decide) (by decide) (by decide)

/-! ## C7: the retry reset pass does not clear lastError -/

/-- C7 fails on the code: `retryFailedItems` selects the errored item
and calls `updateQueueItem(id, retryCount, undefined)`, but
`updateQueueItem` assigns `lastError` only when the argument is truthy,
so the reset pass returns the store unchanged and the item still
carries its `lastError` right before reprocessing. -/
theorem c7_reset_preserves_lastError :
    (getQueueItems [demoItem "q1" 1 1 (some "boom")]).filter
        (fun it => it.lastError.isSome && it.retryCount < MAX_RETRIES) =
      [demoItem "q1" 1 1 (some "boom")] ∧
    retryResetPhase [demoItem "q1" 1 1 (some "boom")]
        [demoItem "q1" 1 1 (some "boom")] =
      .ok [demoItem "q1" 1 1 (some "boom")] ∧
    (demoItem "q1" 1 1 (some "boom")).lastError = some "boom" := by
  refine ⟨?_, ?_, rfl⟩ <;> decide

/-! ## C9: getQueueStatus keeps the five oldest errors, not the most
recent ones -/

/-- C9's "most recent" clause fails on the code: with six errored items
enqueued at times 1..6, `getQueueStatus` reports the errors of the five
oldest items (`slice(0, 5)` of the ascending-by-timestamp list) and
drops the most recent error `e6`; pending and processing behave as
claimed. -/
theorem c9_errors_oldest_five :
    (getQueueStatus ⟨sixErroredStore, false, true⟩).pending = 6 ∧
    (getQueueStatus ⟨sixErroredStore, false, true⟩).processing = false ∧
    (getQueueStatus ⟨sixErroredStore, false, true⟩).errors =
      ["e1", "e2", "e3", "e4", "e5"] ∧
    "e6" ∉ (getQueueStatus ⟨sixErroredStore, false, true⟩).errors := by
  refine ⟨?_, rfl, ?_, ?_⟩ <;> decide

/-! ## C8: processQueue never propagates the storage error -/

/-- C8 fails on the code at a concrete input: with the store read
rejecting with "boom", `processQueue` resolves (it does not re-throw)
and instead emits `sync-failed` carrying the message. -/
theorem c8_counterexample :
    (runProcessQueue demoOkSubmit (some "boom")
        ⟨[demoItem "q1" 1 0 none], false, true⟩).promise = Except.ok () ∧
    (runProcessQueue demoOkSubmit (some "boom")
        ⟨[demoItem "q1" 1 0 none], false, true⟩).promise ≠
      Except.error "boom" ∧
    QEvent.syncFailedWith "boom" ∈
      (runProcessQueue demoOkSubmit (some "boom")
        ⟨[demoItem "q1" 1 0 none], false, true⟩).events := by
  refine ⟨rfl, ?_, ?_⟩ <;> decide

/-- C8 amended: `processQueue` never rejects.  When the store read fails
the error is caught, a `sync-failed` event carrying the message is
emitted and the call resolves with the store untouched; an individual
item's submission failure does not end the cycle — every snapshot item
of a fresh queue is still attempted — and the failure is recorded on
the item (`retry_count` incremented, `last_error` set). -/
theorem c8_never_rejects :
    (∀ (submit : SubmitFn) (storeErr : Option String) (s : QueueState),
      (runProcessQueue submit storeErr s).promise = Except.ok ()) ∧
    (∀ (submit : SubmitFn) (e : String) (store : List OfflineQueueItem),
      runProcessQueue submit (some e) ⟨store, false, true⟩ =
        { state := ⟨store, false, true⟩, trace := []
          events := [QEvent.syncStarted, QEvent.syncFailedWith e]
          promise := .ok () }) ∧
    (∀ (submit : SubmitFn) (store : List OfflineQueueItem),
      (∀ it ∈ store, it.retryCount < MAX_RETRIES ∧ it.type = .CREATE_REPORT) →
      (idsOf store).Nodup →
      (runProcessQueue submit none ⟨store, false, true⟩).trace =
        idsOf (getQueueItems store)) ∧
    (∀ (submit : SubmitFn) (item : OfflineQueueItem) (m : String),
      item.retryCount < MAX_RETRIES → item.type = .CREATE_REPORT →
      submit item.data = .error m →
      (runProcessQueue submit none ⟨[item], false, true⟩).state.store =
        [{ item with retryCount := item.retryCount + 1, lastError := some m }]) := by
  refine ⟨runProcessQueue_promise, fun submit e store => rfl, ?_, ?_⟩
  · intro submit store hfresh hnod
    have hp := getQueueItems_perm store
    have hfresh' : ∀ it ∈ getQueueItems store,
        it.retryCount < MAX_RETRIES ∧ it.type = .CREATE_REPORT :=
      fun it hit => hfresh it (hp.subset hit)
    have hmem' : ∀ it ∈ getQueueItems store, it.id ∈ idsOf store :=
      fun it hit => mem_idsOf.mpr ⟨it, hp.subset hit, rfl⟩
    have hnodI : (idsOf (getQueueItems store)).Nodup := by
      unfold idsOf
      unfold idsOf at hnod
      exact ((hp.map fun it => it.id).nodup_iff).mpr hnod
    have hloop := processLoop_trace_full submit (getQueueItems store) store
      hfresh' hmem' hnod hnodI
    by_cases hemp : getQueueItems store = []
    · unfold runProcessQueue
      simp [hemp, idsOf]
    · unfold runProcessQueue
      simp only [List.isEmpty_iff]
      simp [hemp, hloop.1]
  · intro submit item m hr ht hs
    rw [cycle_single_fail submit item m hr ht hs]

/-- C8's amended statement at concrete inputs. -/
theorem c8_witness :
    (runProcessQueue demoFailSubmit (some "boom") ⟨[], false, true⟩).promise =
      Except.ok () ∧
    runProcessQueue demoFailSubmit (some "boom")
        ⟨[demoItem "q1" 1 0 none], false, true⟩ =
      { state := ⟨[demoItem "q1" 1 0 none], false, true⟩, trace := []
        events := [QEvent.syncStarted, QEvent.syncFailedWith "boom"]
        promise := .ok () } ∧
    (runProcessQueue demoFailSubmit none
        ⟨[demoItem "q1" 1 0 none], false, true⟩).trace =
      idsOf (getQueueItems [demoItem "q1" 1 0 none]) ∧
    (runProcessQueue demoFailSubmit none
        ⟨[demoItem "q1" 1 0 none], false, true⟩).state.store =
      [demoItem "q1" 1 1 (some "Network error")] :=
  ⟨c8_never_rejects.1 demoFailSubmit (some "boom") ⟨[], false, true⟩,
   c8_never_rejects.2.1 demoFailSubmit "boom" [demoItem "q1" 1 0 none],
   c8_never_rejects.2.2.1 demoFailSubmit [demoItem "q1" 1 0 none]
     (by decide) (by decide),
   c8_never_rejects.2.2.2 demoFailSubmit (demoItem "q1" 1 0 none)
     "Network error" (by decide) rfl rfl⟩

/-! ## C2: retry three times, then drop -/

/-- C2: a single queued item whose remote call always fails is attempted
exactly once in each of the first three cycles (incrementing
`retry_count` to 1, 2, 3); the fourth cycle makes no submission attempt
and removes the item, and `getQueueStatus().pending` drops from 1 to
0. -/
theorem c2_retry_and_drop (item : OfflineQueueItem) (submit : SubmitFn)
    (ht : item.type = .CREATE_REPORT) (h0 : item.retryCount = 0)
    (hfail : ∀ p, submit p ≠ .ok ()) :
    (runCycles submit ⟨[item], false, true⟩ 4).2 =
      [[item.id], [item.id], [item.id], []] ∧
    (runCycles submit ⟨[item], false, true⟩ 4).1.store = [] ∧
    ((runCycles submit ⟨[item], false, true⟩ 1).1.store.map
      fun it => it.retryCount) = [1] ∧
    ((runCycles submit ⟨[item], false, true⟩ 2).1.store.map
      fun it => it.retryCount) = [2] ∧
    ((runCycles submit ⟨[item], false, true⟩ 3).1.store.map
      fun it => it.retryCount) = [3] ∧
    (getQueueStatus (runCycles submit ⟨[item], false, true⟩ 3).1).pending = 1 ∧
    (getQueueStatus (runCycles submit ⟨[item], false, true⟩ 4).1).pending = 0 := by
  obtain ⟨m, hm⟩ : ∃ m, submit item.data = .error m := by
    cases h : submit item.data with
    | error m => exact ⟨m, rfl⟩
    | ok u => cases u; exact absurd h (hfail item.data)
  have h1 := cycle_single_fail submit item m (by rw [h0]; decide) ht hm
  have h2 := cycle_single_fail submit
    { item with retryCount := item.retryCount + 1, lastError := some m } m
    (by show item.retryCount + 1 < MAX_RETRIES; rw [h0]; decide) ht hm
  have h3 := cycle_single_fail submit
    { item with retryCount := item.retryCount + 1 + 1, lastError := some m } m
    (by show item.retryCount + 1 + 1 < MAX_RETRIES; rw [h0]; decide) ht hm
  have h4 := cycle_single_drop submit
    { item with retryCount := item.retryCount + 1 + 1 + 1, lastError := some m }
    (by show item.retryCount + 1 + 1 + 1 ≥ MAX_RETRIES; rw [h0]; decide)
  simp only [h0] at h1 h2 h3 h4
  norm_num at h1 h2 h3 h4
  refine ⟨?_, ?_, ?_, ?_, ?_, ?_, ?_⟩ <;>
    simp [runCycles, h1, h2, h3, h4, getQueueStatus_pending]

/-- C2 at a concrete input: a never-succeeding remote call retries the
item in cycles 1-3 and drops it in cycle 4. -/
theorem c2_witness :
    (runCycles demoFailSubmit ⟨[demoItem "q1" 1 0 none], false, true⟩ 4).2 =
      [["q1"], ["q1"], ["q1"], []] ∧
    (runCycles demoFailSubmit ⟨[demoItem "q1" 1 0 none], false, true⟩ 4).1.store =
      [] ∧
    (getQueueStatus
      (runCycles demoFailSubmit ⟨[demoItem "q1" 1 0 none], false, true⟩ 3).1).pending = 1 ∧
    (getQueueStatus
      (runCycles demoFailSubmit ⟨[demoItem "q1" 1 0 none], false, true⟩ 4).1).pending = 0 := by
  have h := c2_retry_and_drop (demoItem "q1" 1 0 none) demoFailSubmit rfl rfl
    (fun p hp => by simp [demoFailSubmit] at hp)
  exact ⟨h.1, h.2.1, h.2.2.2.2.2.1, h.2.2.2.2.2.2⟩

/-! ## C3: FIFO submission order within a cycle -/

/-- C3: in a single cycle with an always-succeeding remote call, three
queued items with enqueue timestamps t1 < t2 < t3 (stored in any order)
are submitted sequentially in exactly the order t1, t2, t3. -/
theorem c3_fifo_order (submit : SubmitFn) (a b c : OfflineQueueItem)
    (store : List OfflineQueueItem) (hperm : store.Perm [a, b, c])
    (hab : a.timestamp < b.timestamp) (hbc : b.timestamp < c.timestamp)
    (hra : a.retryCount < MAX_RETRIES) (hrb : b.retryCount < MAX_RETRIES)
    (hrc : c.retryCount < MAX_RETRIES)
    (hta : a.type = .CREATE_REPORT) (htb : b.type = .CREATE_REPORT)
    (htc : c.type = .CREATE_REPORT)
    (hok : ∀ p, submit p = .ok ()) :
    (runProcessQueue submit none ⟨store, false, true⟩).trace =
      [a.id, b.id, c.id] := by
  have habc_sorted : List.Sorted tsLe [a, b, c] := by
    refine List.Pairwise.cons ?_ (List.Pairwise.cons ?_
      (List.Pairwise.cons ?_ List.Pairwise.nil))
    · intro x hx
      rcases List.mem_cons.mp hx with rfl | hx
      · exact Nat.le_of_lt hab
      · rcases List.mem_singleton.mp hx with rfl
        exact Nat.le_of_lt (Nat.lt_trans hab hbc)
    · intro x hx
      rcases List.mem_singleton.mp hx with rfl
      exact Nat.le_of_lt hbc
    · intro x hx
      cases hx
  have hkeys : ((getQueueItems store).map fun it => it.timestamp).Nodup := by
    have hpm : ((getQueueItems store).map fun it => it.timestamp).Perm
        ([a, b, c].map fun it => it.timestamp) :=
      ((getQueueItems_perm store).trans hperm).map _
    refine hpm.nodup_iff.mpr ?_
    simp
    omega
  have hsnap : getQueueItems store = [a, b, c] :=
    sorted_eq_of_perm ((getQueueItems_perm store).trans hperm)
      (getQueueItems_sorted store) habc_sorted hkeys
  have hfresh : ∀ it ∈ [a, b, c],
      it.retryCount < MAX_RETRIES ∧ it.type = .CREATE_REPORT := by
    intro it hit
    rcases List.mem_cons.mp hit with rfl | hit
    · exact ⟨hra, hta⟩
    rcases List.mem_cons.mp hit with rfl | hit
    · exact ⟨hrb, htb⟩
    rcases List.mem_cons.mp hit with rfl | hit
    · exact ⟨hrc, htc⟩
    cases hit
  have hloop := processLoop_allOk submit hok [a, b, c] store hfresh
  unfold runProcessQueue
  simp [hsnap, hloop.1, idsOf]

/-- C3 at a concrete input: items enqueued at times 1, 2, 3 but stored
in scrambled order sync in timestamp order. -/
theorem c3_witness :
    (runProcessQueue demoOkSubmit none
        ⟨[demoItem "qc" 3 0 none, demoItem "qa" 1 0 none,
          demoItem "qb" 2 0 none], false, true⟩).trace =
      ["qa", "qb", "qc"] :=
  c3_fifo_order demoOkSubmit (demoItem "qa" 1 0 none) (demoItem "qb" 2 0 none)
    (demoItem "qc" 3 0 none) _ (by decide) (by decide) (by decide) (by decide)
    (by decide) (by decide) rfl rfl rfl (fun p => rfl)

/-! ## C10: a drop's bookkeeping rejection aborts the cycle -/

/-- C10: when the first snapshot item is dropped for exhausted retries,
the follow-up `updateQueueItem` on the removed id rejects with the
`Queue item ... not found` error, which escapes the per-item loop: the
cycle makes no submission attempt, emits `sync-failed`, and every later
queued item stays queued untouched. -/
theorem c10_drop_aborts_cycle (submit : SubmitFn) (d : OfflineQueueItem)
    (rest : List OfflineQueueItem) (hr : d.retryCount ≥ MAX_RETRIES)
    (hfirst : ∀ x ∈ rest, d.timestamp ≤ x.timestamp)
    (hid : ∀ x ∈ rest, x.id ≠ d.id) :
    runProcessQueue submit none ⟨d :: rest, false, true⟩ =
      { state := ⟨rest, false, true⟩
        trace := []
        events := [QEvent.syncStarted,
          QEvent.itemFailed d.id "Max retries exceeded",
          QEvent.syncFailedWith ("Queue item " ++ d.id ++ " not found")]
        promise := .ok () } := by
  obtain ⟨tail, hsnap⟩ := getQueueItems_cons_min d rest hfirst
  have hstep := runItem_drop submit (d :: rest) hr
  have hremove : removeFromQueue (d :: rest) d.id = rest := by
    have h1 : removeFromQueue (d :: rest) d.id = removeFromQueue rest d.id := by
      unfold removeFromQueue
      rw [List.filter_cons]
      simp
    rw [h1]
    unfold removeFromQueue
    exact List.filter_eq_self.mpr (fun x hx => by simpa using hid x hx)
  rw [hremove] at hstep
  unfold runProcessQueue
  simp [hsnap, processLoop, hstep]

/-- C10 at a concrete input: the drop of an exhausted item aborts the
cycle before the later fresh item is attempted. -/
theorem c10_witness :
    runProcessQueue demoOkSubmit none
        ⟨demoItem "qd" 1 3 (some "Network error") ::
          [demoItem "qe" 2 0 none], false, true⟩ =
      { state := ⟨[demoItem "qe" 2 0 none], false, true⟩
        trace := []
        events := [QEvent.syncStarted,
          QEvent.itemFailed "qd" "Max retries exceeded",
          QEvent.syncFailedWith "Queue item qd not found"]
        promise := .ok () } :=
  c10_drop_aborts_cycle demoOkSubmit (demoItem "qd" 1 3 (some "Network error"))
    [demoItem "qe" 2 0 none] (by decide) (by decide) (by decide)

/-! ## C1: mutual exclusion of processQueue cycles -/

lemma schedStep_inv (submit : SubmitFn) (s : SchedState) (ev : SchedEvent)
    (h : SchedInv s) : SchedInv (schedStep submit s ev) := by
  cases ev with
  | trigger =>
    unfold schedStep
    by_cases hg : (s.isProcessing || !s.online) = true
    · rw [if_pos hg]
      exact h
    · rw [if_neg hg]
      refine ⟨h.storeNodup, List.nodup_nil, ?_, ?_, ?_, h.finishedNodup⟩
      · intro l hl
        injection hl with hl
        subst hl
        have hperm : (idsOf (getQueueItems s.store)).Perm (idsOf s.store) := by
          unfold idsOf
          exact (getQueueItems_perm s.store).map fun it => it.id
        exact hperm.nodup_iff.mpr h.storeNodup
      · intro l hl i _ hmem
        cases hmem
      · intro _
        rfl
  | tick =>
    cases hin : s.inflight with
    | none =>
      unfold schedStep
      rw [hin]
      exact h
    | some items =>
      cases items with
      | nil =>
        unfold schedStep
        rw [hin]
        refine ⟨h.storeNodup, List.nodup_nil, ?_, ?_, ?_, ?_⟩
        · intro l hl
          exact Option.noConfusion hl
        · intro l hl
          exact Option.noConfusion hl
        · intro hs
          simp at hs
        · intro t ht
          rcases List.mem_append.mp ht with ht | ht
          · exact h.finishedNodup t ht
          · rcases List.mem_singleton.mp ht with rfl
            exact h.traceNodup
      | cons item rest =>
        have hstoreN : (idsOf (runItem submit s.store item).store).Nodup :=
          runItem_store_nodup h.storeNodup
        have hinN : (idsOf (item :: rest)).Nodup := h.inflightNodup _ hin
        have hinF : ∀ i ∈ idsOf (item :: rest), i ∉ s.cycleTrace :=
          h.inflightFresh _ hin
        have hitem_tr : item.id ∉ s.cycleTrace :=
          hinF item.id (by simp [idsOf])
        have hconsN : (∀ x ∈ rest, ¬ x.id = item.id) ∧
            (rest.map fun it => it.id).Nodup := by
          simpa [idsOf] using hinN
        have hrestN : (idsOf rest).Nodup := hconsN.2
        have htrN : ∀ b : Bool,
            (s.cycleTrace ++ (if b then [item.id] else [])).Nodup := by
          intro b
          cases b
          · simpa using h.traceNodup
          · simp [List.nodup_append, h.traceNodup, hitem_tr]
        unfold schedStep
        rw [hin]
        dsimp only
        split
        · refine ⟨hstoreN, List.nodup_nil, ?_, ?_, ?_, ?_⟩
          · intro l hl
            exact Option.noConfusion hl
          · intro l hl
            exact Option.noConfusion hl
          · intro hs
            simp at hs
          · intro t ht
            rcases List.mem_append.mp ht with ht | ht
            · exact h.finishedNodup t ht
            · rcases List.mem_singleton.mp ht with rfl
              exact htrN _
        · refine ⟨hstoreN, htrN _, ?_, ?_, ?_, h.finishedNodup⟩
          · intro l hl
            injection hl with hl
            subst hl
            exact hrestN
          · intro l hl i hi hmem
            injection hl with hl
            subst hl
            have hi' : i ∈ idsOf (item :: rest) := by
              simp only [idsOf, List.map_cons, List.mem_cons]
              exact .inr hi
            rcases List.mem_append.mp hmem with hmem | hmem
            · exact hinF i hi' hmem
            · have hii : i = item.id := by
                rcases hb : (runItem submit s.store item).attempted
                · rw [hb] at hmem
                  cases hmem
                · rw [hb] at hmem
                  exact List.mem_singleton.mp hmem
              have hx : ∃ x ∈ rest, x.id = i := by
                simpa [idsOf] using hi
              obtain ⟨x, hxmem, hxi⟩ := hx
              exact hconsN.1 x hxmem (by rw [hxi, hii])
          · intro _
            exact h.guardHeld (by rw [hin]; rfl)

lemma schedInv_init (store : List OfflineQueueItem) (online : Bool)
    (h : (idsOf store).Nodup) :
    SchedInv ⟨store, false, online, none, [], []⟩ := by
  refine ⟨h, List.nodup_nil, ?_, ?_, ?_, ?_⟩
  · intro l hl
    exact Option.noConfusion hl
  · intro l hl
    exact Option.noConfusion hl
  · intro hs
    simp at hs
  · intro t ht
    cases ht

lemma schedRun_inv (submit : SubmitFn) (evs : List SchedEvent) :
    ∀ s : SchedState, SchedInv s → SchedInv (schedRun submit s evs) := by
  induction evs with
  | nil =>
    intro s h
    exact h
  | cons e rest ih =>
    intro s h
    have hstep : schedRun submit s (e :: rest) =
        schedRun submit (schedStep submit s e) rest := rfl
    rw [hstep]
    exact ih _ (schedStep_inv submit s e h)

/-- C1: at most one `processQueue` cycle is ever active.  A `trigger`
arriving while a cycle is in flight is a no-op (the guard's early
return: no state change, no submission attempt), a re-entrant
`processQueue` call resolves immediately with no attempts and no
events, `performSync` with a non-null shared promise awaits it instead
of starting a new operation, and over every interleaving of triggers
and cycle steps from a well-formed start, each completed or in-flight
cycle attempts any queued item at most once. -/
theorem c1_processQueue_mutual_exclusion :
    (∀ (submit : SubmitFn) (s : SchedState), s.isProcessing = true →
      schedStep submit s .trigger = s) ∧
    (∀ (submit : SubmitFn) (storeErr : Option String) (s : QueueState),
      s.isProcessing = true →
      runProcessQueue submit storeErr s =
        { state := s, trace := [], events := [], promise := .ok () }) ∧
    (∀ ns : NetworkStatus, performSyncDecision true ns = .awaitInFlight) ∧
    (∀ (submit : SubmitFn) (store : List OfflineQueueItem) (online : Bool)
      (evs : List SchedEvent), (idsOf store).Nodup →
      (∀ t ∈ (schedRun submit ⟨store, false, online, none, [], []⟩ evs).finished,
        t.Nodup) ∧
      (schedRun submit ⟨store, false, online, none, [], []⟩ evs).cycleTrace.Nodup) := by
  refine ⟨?_, ?_, fun ns => rfl, ?_⟩
  · intro submit s hs
    unfold schedStep
    simp [hs]
  · intro submit storeErr s hs
    unfold runProcessQueue
    simp [hs]
  · intro submit store online evs h
    have hinv := schedRun_inv submit evs _ (schedInv_init store online h)
    exact ⟨hinv.finishedNodup, hinv.traceNodup⟩

/-- C1 at concrete inputs: a trigger during a busy state is a no-op, a
re-entrant call resolves with no attempts, and a completed cycle's
trace has no duplicate attempts. -/
theorem c1_witness :
    schedStep demoOkSubmit busySchedState .trigger = busySchedState ∧
    runProcessQueue demoOkSubmit none ⟨[demoItem "q1" 1 0 none], true, true⟩ =
      { state := ⟨[demoItem "q1" 1 0 none], true, true⟩, trace := []
        events := [], promise := .ok () } ∧
    performSyncDecision true .online = .awaitInFlight ∧
    List.Nodup ["q1"] ∧
    (schedRun demoOkSubmit ⟨[demoItem "q1" 1 0 none], false, true, none, [], []⟩
      [.trigger, .tick]).cycleTrace.Nodup :=
  ⟨c1_processQueue_mutual_exclusion.1 demoOkSubmit busySchedState rfl,
   c1_processQueue_mutual_exclusion.2.1 demoOkSubmit none
     ⟨[demoItem "q1" 1 0 none], true, true⟩ rfl,
   c1_processQueue_mutual_exclusion.2.2.1 .online,
   (c1_processQueue_mutual_exclusion.2.2.2 demoOkSubmit
     [demoItem "q1" 1 0 none] true [.trigger, .tick, .tick] (by decide)).1
     ["q1"] (by decide),
   (c1_processQueue_mutual_exclusion.2.2.2 demoOkSubmit
     [demoItem "q1" 1 0 none] true [.trigger, .tick] (by decide)).2⟩

/-! ## C4: the duplicate detector -/

lemma candidatesOf_eq (current : Location) (radiusMeters : ℝ)
    (rows : List ReportRow) :
    candidatesOf current radiusMeters rows =
      (rows.filter fun row =>
        decide (haversine current ⟨row.latitude, row.longitude⟩ ≤ radiusMeters)).map
        (fun row => ⟨row.id, row.description,
          round (haversine current ⟨row.latitude, row.longitude⟩),
          row.created_at⟩) := by
  suffices h : ∀ (rows : List ReportRow) (acc : List PotentialDuplicate),
      rows.foldl
        (fun candidates row =>
          let dist := haversine current ⟨row.latitude, row.longitude⟩
          if dist ≤ radiusMeters then
            candidates ++ [⟨row.id, row.description, round dist, row.created_at⟩]
          else candidates)
        acc =
      acc ++ (rows.filter fun row =>
        decide (haversine current ⟨row.latitude, row.longitude⟩ ≤ radiusMeters)).map
        (fun row => ⟨row.id, row.description,
          round (haversine current ⟨row.latitude, row.longitude⟩),
          row.created_at⟩) by
    simpa [candidatesOf] using h rows []
  intro rows
  induction rows with
  | nil =>
    intro acc
    simp
  | cons row rest ih =>
    intro acc
    by_cases hd : haversine current ⟨row.latitude, row.longitude⟩ ≤ radiusMeters
    · simp [hd, ih]
    · simp [hd, ih]

/-- C4: `findPotentialDuplicates` computes exactly the specification's
description — keep the candidates whose haversine distance (mean Earth
radius 6,371,000 m) is at most the radius, report each distance rounded
to the nearest meter, sort ascending by the reported distance, return
at most the 5 closest — and its output is sorted with length at
most 5. -/
theorem c4_duplicates_filter_sort_take (location : Location)
    (radiusMeters : ℝ) (rows : List ReportRow) :
    findPotentialDuplicates location rows radiusMeters =
      findPotentialDuplicatesSpec location rows radiusMeters ∧
    (findPotentialDuplicates location rows radiusMeters).Sorted distLe ∧
    (findPotentialDuplicates location rows radiusMeters).length ≤ 5 := by
  refine ⟨?_, ?_, ?_⟩
  · unfold findPotentialDuplicates findPotentialDuplicatesSpec
    rw [candidatesOf_eq]
  · unfold findPotentialDuplicates
    exact List.Pairwise.sublist (List.take_sublist 5 _)
      (List.sorted_insertionSort distLe _)
  · unfold findPotentialDuplicates
    exact List.length_take_le 5 _
